import Mathlib

/-!
Verification of the mesh-construction / receiver-interpolation core of the
emg3d example gallery.  The gallery scripts under `src/` are glue code that
call `get_domain`, `get_stretched_h`, `get_hx_h0` and `get_receiver` of the
external `emg3d` library; those four routines are the "Domain Sizer",
"Stretched Mesh Builder" and "Receiver Interpolator" of the specification and
are not part of this repository, so they are modelled here from the
specification (each such definition is marked `Modelled from the spec:`).
Everything transcribed from the gallery scripts themselves (axis tuples,
array-slicing of the secondary source, plotting error formulas, pipeline
call order) is embedded directly from the source files.
-/

/-- Error taxonomy of the specification (spec section 7). -/
inductive MeshError where
  | invalidParameter
  | insufficientCells
  | nonConvergent
  | shapeMismatch
deriving DecidableEq, Repr

/-- Pipeline stages of the gallery examples (spec section 2): Domain Sizer,
Stretched Mesh Builder, external solve, Receiver Interpolator. -/
inductive Stage where
  | domainSizer
  | meshBuilder
  | solveStep
  | receiverInterp
deriving DecidableEq, Repr

/-- Modelled from the spec: the geometrically growing run of cell widths of
the Stretched Mesh Builder (spec section 4.2): `n` cells of widths
`mw*r, mw*r^2, ..., mw*r^n`, read from the uniform block outward. -/
def stretchWidths (mw r : ℚ) (n : ℕ) : List ℚ :=
  (List.range n).map (fun i => mw * r ^ (i + 1))

/-- Modelled from the spec: the monotone bisection root-search of the
Stretched Mesh Builder (spec section 4.2), maintaining a bracket
`[lo, hi]` with the invariant that the geometric run at `lo` does not
exceed the outward distance `d`; returns the lower end after `k` steps. -/
def bisectLo (mw d : ℚ) (n : ℕ) : ℕ → ℚ → ℚ → ℚ
  | 0, lo, _ => lo
  | k + 1, lo, hi =>
      let mid := (lo + hi) / 2
      if (stretchWidths mw mid n).sum ≤ d then bisectLo mw d n k mid hi
      else bisectLo mw d n k lo mid

/-- Modelled from the spec: the per-step growth factor solved numerically so
that the geometric series of `n` stretched cells reaches the outward
distance `d` (spec section 4.2); deterministic bisection with a fixed
iteration budget of 40 on the bracket `[1, max 1 (d/mw)]`. -/
def findGrowth (mw d : ℚ) (n : ℕ) : ℚ :=
  bisectLo mw d n 40 1 (max 1 (d / mw))

/-- Modelled from the spec: one stretched side of the axis (spec section
4.2): `n` geometrically growing cells whose final cell is adjusted so the
side sums exactly to the outward distance `d`. -/
def sideWidths (mw d : ℚ) : ℕ → List ℚ
  | 0 => []
  | m + 1 =>
      let r := findGrowth mw d (m + 1)
      stretchWidths mw r m ++ [d - (stretchWidths mw r m).sum]

/-- Modelled from the spec: the clip branch of the Stretched Mesh Builder
(spec section 4.2): when the uniform block alone meets or exceeds the
span, uniform `mw` cells are laid out and the final cell is clipped so the
sequence sums exactly to the remaining span; `n` is the cell budget. -/
def clipWidths (mw : ℚ) : ℕ → ℚ → List ℚ
  | 0, _ => []
  | n + 1, rem => if rem ≤ mw then [rem] else mw :: clipWidths mw n (rem - mw)

/-- Modelled from the spec: number of uniform `mw` cells needed to span the
anchor-to-anchor distance `dist` (spec section 4.2, two-anchor case);
`fuel` bounds the iteration. -/
def coverCount (mw : ℚ) : ℕ → ℚ → ℕ
  | 0, _ => 1
  | n + 1, dist => if dist ≤ mw then 1 else coverCount mw n (dist - mw) + 1

/-- Modelled from the spec: the stretched part of the build once the uniform
block is placed (spec section 4.2).  `nU` uniform cells start at
`bl`; the remaining budget is split over the two stretched sides.  Fails
with `insufficientCells` when fewer than one stretched cell per side
remains, and with `nonConvergent` when a side distance is too short for
its cell budget at any growth factor of at least one. -/
def buildMain (mw : ℚ) (domain : ℚ × ℚ) (n nU : ℕ) (bl : ℚ) :
    Except MeshError (List ℚ) :=
  if n < nU + 2 then .error .insufficientCells
  else
    let nL := (n - nU) / 2
    let nR := n - nU - nL
    let dL := bl - domain.1
    let dR := domain.2 - (bl + (nU : ℚ) * mw)
    if dL < (nL : ℚ) * mw ∨ dR < (nR : ℚ) * mw then .error .nonConvergent
    else
      .ok ((sideWidths mw dL nL).reverse ++ List.replicate nU mw ++
            sideWidths mw dR nR)

/-- Modelled from the spec: the Stretched Mesh Builder
`build_stretched_axis(min_width, domain, n_cells, anchor, second_anchor)`
(spec section 4.2), the model of emg3d's `get_stretched_h`, which is not
part of this repository.  A uniform block of `min_width` cells is centered
on the anchor (or spans to the second anchor), flanked by geometrically
growing runs whose growth factor is found by bisection; the outermost cell
of each run is adjusted so the sequence sums exactly to the domain span.
When the uniform block alone meets or exceeds the span the block is
clipped to the span and no stretching occurs. -/
def build_stretched_axis (min_width : ℚ) (domain : ℚ × ℚ) (n_cells : ℕ)
    (anchor : ℚ) (second : Option ℚ := none) : Except MeshError (List ℚ) :=
  if min_width ≤ 0 ∨ domain.2 ≤ domain.1 ∨ anchor < domain.1 ∨
      domain.2 < anchor then
    .error .invalidParameter
  else if domain.2 - domain.1 ≤ (n_cells : ℚ) * min_width then
    .ok (clipWidths min_width n_cells (domain.2 - domain.1))
  else
    match second with
    | none =>
        let nU : ℕ := if n_cells % 2 = 0 then 2 else 1
        buildMain min_width domain n_cells nU
          (anchor - (nU : ℚ) * min_width / 2)
    | some x1 =>
        if x1 < anchor ∨ domain.2 < x1 then .error .invalidParameter
        else
          buildMain min_width domain n_cells
            (coverCount min_width n_cells (x1 - anchor)) anchor

/-- Node positions of a tensor-mesh axis: the origin followed by the
cumulative cell boundaries. -/
def axisNodes (x0 : ℚ) : List ℚ → List ℚ
  | [] => [x0]
  | w :: ws => x0 :: axisNodes (x0 + w) ws

/-- Approximate square root on the rationals via the integer square root of a
scaled numerator; used only inside the skin-depth heuristic. -/
def qsqrt (x : ℚ) : ℚ :=
  if x ≤ 0 then 0
  else (Nat.sqrt (x.num.toNat * x.den * 1000000) : ℚ) / (1000 * (x.den : ℚ))

/-- Modelled from the spec: the electromagnetic skin depth used by the Domain
Sizer (spec section 4.1); it grows with resistivity and shrinks with the
magnitude of the frequency, `503.3 * sqrt(res/|freq|)` approximately. -/
def skin_depth (res freq : ℚ) : ℚ :=
  (5033 / 10) * qsqrt (res / |freq|)

/-- Modelled from the spec: the Domain Sizer `compute_domain` (spec section
4.1), the model of emg3d's `get_domain`, which is not part of this
repository.  Returns the minimum cell width unchanged together with the
interval `[x0 - fact_neg*skin, x0 + fact_pos*skin]`, clipped to the
caller-supplied hard limits when given; fails with `invalidParameter` on
non-positive resistivity, zero frequency, non-positive minimum width, or
inverted limits. -/
def compute_domain (x0 freq min_width res : ℚ) (limits : Option (ℚ × ℚ))
    (fact_neg fact_pos : ℚ) : Except MeshError (ℚ × (ℚ × ℚ)) :=
  if res ≤ 0 ∨ freq = 0 ∨ min_width ≤ 0 then .error .invalidParameter
  else
    let skin := skin_depth res freq
    match limits with
    | none => .ok (min_width, (x0 - fact_neg * skin, x0 + fact_pos * skin))
    | some l =>
        if l.2 ≤ l.1 then .error .invalidParameter
        else
          .ok (min_width,
               (max l.1 (min l.2 (x0 - fact_neg * skin)),
                min l.2 (max l.1 (x0 + fact_pos * skin))))

/-- Ceiling of a rational as a natural number. -/
def qceilNat (x : ℚ) : ℕ := (Int.ceil x).toNat

/-- Modelled from the spec: emg3d's `get_hx_h0` (sections 4.1, 4.2 and 7 of
the spec), which is not part of this repository: it sizes the calculation
domain from the smallest supplied resistivity and the frequency, lays
minimum-width cells over the survey domain and stretched padding outside
it, returning the cell widths and the axis origin.  Fails with
`invalidParameter` whenever a supplied resistivity is non-positive, the
frequency is zero, the caller-supplied domain has
`domain.1 >= domain.2`, or the minimum width is non-positive. -/
def get_hx_h0 (res : List ℚ) (freq : ℚ) (domain : ℚ × ℚ) (fixed : List ℚ)
    (min_width : ℚ) : Except MeshError (List ℚ × ℚ) :=
  if (∃ r ∈ res, r ≤ 0) ∨ freq = 0 ∨ domain.2 ≤ domain.1 ∨ min_width ≤ 0 then
    .error .invalidParameter
  else
    let span := domain.2 - domain.1
    let rmin := res.foldr min (res.headD 1)
    let pad := 5 * skin_depth rmin freq
    let core := clipWidths min_width (qceilNat (span / min_width)) span
    let side := sideWidths min_width pad 8
    .ok (side.reverse ++ core ++ side, domain.1 - pad - (fixed.headD 0) * 0)

/-- Linear blend between two sample values. -/
def lin (a b t : ℚ) : ℚ := a + (b - a) * t

/-- Modelled from the spec: interval location on a staggered coordinate list
(spec section 4.3).  Returns the index of the enclosing interval and the
fractional position inside it, or the out-of-range sentinel `none` when
the coordinate lies outside the covered span. -/
def locate : List ℚ → ℚ → Option (ℕ × ℚ)
  | [], _ => none
  | [x], t => if t = x then some (0, 0) else none
  | x0 :: x1 :: rest, t =>
      if t < x0 then none
      else if t ≤ x1 then some (0, (t - x0) / (x1 - x0))
      else
        match locate (x1 :: rest) t with
        | some p => some (p.1 + 1, p.2)
        | none => none

/-- Modelled from the spec: the 1D linear interpolation helper with the
documented out-of-range sentinel (spec sections 4.3 and 8); this models
the in-file scipy `interp1d(..., bounds_error=False)` helper of
`plot_lineplot_ex`, whose implementation is external to this repository. -/
def interp1d (xs : List ℚ) (ys : ℕ → ℚ) (t : ℚ) : Option ℚ :=
  match locate xs t with
  | some p => some (lin (ys p.1) (ys (p.1 + 1)) p.2)
  | none => none

/-- Modelled from the spec: the Receiver Interpolator `get_receiver` (spec
section 4.3), the model of emg3d's `get_receiver`, which is not part of
this repository: tri-linear interpolation of a staggered-grid field
component at a receiver coordinate, returning the out-of-range sentinel
`none` whenever any coordinate lies strictly outside the staggered span. -/
def get_receiver (xs ys zs : List ℚ) (f : ℕ → ℕ → ℕ → ℚ)
    (p : ℚ × ℚ × ℚ) : Option ℚ :=
  match locate xs p.1 with
  | none => none
  | some iu =>
    match locate ys p.2.1 with
    | none => none
    | some jv =>
      match locate zs p.2.2 with
      | none => none
      | some kw =>
        some (lin
          (lin (lin (f iu.1 jv.1 kw.1) (f (iu.1+1) jv.1 kw.1) iu.2)
               (lin (f iu.1 (jv.1+1) kw.1) (f (iu.1+1) (jv.1+1) kw.1) iu.2)
               jv.2)
          (lin (lin (f iu.1 jv.1 (kw.1+1)) (f (iu.1+1) jv.1 (kw.1+1)) iu.2)
               (lin (f iu.1 (jv.1+1) (kw.1+1)) (f (iu.1+1) (jv.1+1) (kw.1+1))
                 iu.2)
               jv.2) kw.2)

/-- Transcribed from src/examples/tutorials/total_vs_ps_field.py:184-185:
the in-place numpy update `fx[:, 1:-1, 1:-1] *= 0.25*(dsigma[:, :-1, :-1]
+ dsigma[:, 1:, :-1] + dsigma[:, :-1, 1:] + dsigma[:, 1:, 1:])` on an
x-component array of shape `(s1, s2, s3)`. -/
def scale_fx (s2 s3 : ℕ) (fx ds : ℕ → ℕ → ℕ → ℚ) : ℕ → ℕ → ℕ → ℚ :=
  fun i j k =>
    if 1 ≤ j ∧ j + 2 ≤ s2 ∧ 1 ≤ k ∧ k + 2 ≤ s3 then
      fx i j k * ((1 : ℚ)/4 * (ds i (j-1) (k-1) + ds i j (k-1) +
                               ds i (j-1) k + ds i j k))
    else fx i j k

/-- Transcribed from src/examples/tutorials/total_vs_ps_field.py:186-187:
the update `fy[1:-1, :, 1:-1] *= 0.25*(dsigma[:-1, :, :-1] +
dsigma[1:, :, :-1] + dsigma[:-1, :, 1:] + dsigma[1:, :, 1:])`. -/
def scale_fy (s1 s3 : ℕ) (fy ds : ℕ → ℕ → ℕ → ℚ) : ℕ → ℕ → ℕ → ℚ :=
  fun i j k =>
    if 1 ≤ i ∧ i + 2 ≤ s1 ∧ 1 ≤ k ∧ k + 2 ≤ s3 then
      fy i j k * ((1 : ℚ)/4 * (ds (i-1) j (k-1) + ds i j (k-1) +
                               ds (i-1) j k + ds i j k))
    else fy i j k

/-- Transcribed from src/examples/tutorials/total_vs_ps_field.py:188-189:
the update `fz[1:-1, 1:-1, :] *= 0.25*(dsigma[:-1, :-1, :] +
dsigma[1:, :-1, :] + dsigma[:-1, 1:, :] + dsigma[1:, 1:, :])`. -/
def scale_fz (s1 s2 : ℕ) (fz ds : ℕ → ℕ → ℕ → ℚ) : ℕ → ℕ → ℕ → ℚ :=
  fun i j k =>
    if 1 ≤ i ∧ i + 2 ≤ s1 ∧ 1 ≤ j ∧ j + 2 ≤ s2 then
      fz i j k * ((1 : ℚ)/4 * (ds (i-1) (j-1) k + ds i (j-1) k +
                               ds (i-1) j k + ds i j k))
    else fz i j k

/-- Extended value: a finite rational, a signed infinity, or not-a-number;
the codomain of the unguarded division in `plot_result_rel`. -/
inductive FVal where
  | fin (q : ℚ)
  | posInf
  | negInf
  | nan
deriving DecidableEq, Repr

/-- Division of two finite values with the IEEE-754 / numpy semantics of a
zero divisor: `0/0` is NaN and `x/0` for nonzero `x` is a signed
infinity; no error is raised. -/
def fdivStep (a b : ℚ) : FVal :=
  if b = 0 then
    if a = 0 then .nan else if 0 < a then .posInf else .negInf
  else .fin (a / b)

/-- Absolute value on extended values: both infinities map to the positive
infinity and NaN propagates. -/
def fabs : FVal → FVal
  | .fin q => .fin |q|
  | .posInf => .posInf
  | .negInf => .posInf
  | .nan => .nan

/-- Scaling of an extended value by a positive finite constant. -/
def fscale (c : ℚ) : FVal → FVal
  | .fin q => .fin (c * q)
  | .posInf => .posInf
  | .negInf => .negInf
  | .nan => .nan

/-- Finiteness predicate on extended values. -/
def FVal.isFinite : FVal → Bool
  | .fin _ => true
  | _ => false

/-- Transcribed from src/examples/comparisons/1D_VTI_empymod_Laplace.py:79
and src/examples/magnetics/magnetic_field.py:93,102: one entry of the
relative-error field `np.abs((depm.real-de3d.real)/depm.real)*100`
(identically for the imaginary parts), with the reference entry `depm`
and the solver entry `de3d`. -/
def relErrEntry (depm de3d : ℚ) : FVal :=
  fscale 100 (fabs (fdivStep (depm - de3d) depm))

/-- Padding expansion of a discretize cell-width tuple `(w, n, f)`: widths
`w*|f|^1, ..., w*|f|^n`, reversed when `f` is negative, exactly as
`discretize.TensorMesh` expands the tuples written in the gallery
sources. -/
def padWidths (w f : ℚ) (n : ℕ) : List ℚ :=
  if f < 0 then ((List.range n).map (fun i => w * (-f) ^ (i + 1))).reverse
  else (List.range n).map (fun i => w * f ^ (i + 1))

/-- Transcribed from src/examples/tutorials/minimum_example.py:65-70: the
x-axis cell widths `[(25, 10, -1.04), (25, 28), (25, 10, 1.04)]` of the
minimum example's `discretize.TensorMesh` (1.04 is the rational 26/25). -/
def minimumExampleHx : List ℚ :=
  padWidths 25 (-26/25) 10 ++ List.replicate 28 25 ++ padWidths 25 (26/25) 10

/-- Transcribed pipeline-call order of
src/examples/comparisons/1D_VTI_empymod_Laplace.py: two `get_domain` calls
(179-180), three `get_stretched_h` calls (184-186), `solve` (201), three
`get_receiver` calls (208, 215, 222), then for the deep-water model two
`get_domain` calls (278-280), three `get_stretched_h` calls (284-286),
`solve` (322) and three `get_receiver` calls (329, 336, 343). -/
def trace_vti_laplace : List Stage :=
  [.domainSizer, .domainSizer, .meshBuilder, .meshBuilder, .meshBuilder,
   .solveStep, .receiverInterp, .receiverInterp, .receiverInterp,
   .domainSizer, .domainSizer, .meshBuilder, .meshBuilder, .meshBuilder,
   .solveStep, .receiverInterp, .receiverInterp, .receiverInterp]

/-- Transcribed pipeline-call order of
src/examples/comparisons/2D_triaxial_MARE2DEM.py: three `get_hx_h0` calls
(48-55), each of which sizes the domain and builds the stretched axis,
then `solve` and `get_receiver` for the background model (118-119) and
`solve` and `get_receiver` for the target model (126-127). -/
def trace_triaxial : List Stage :=
  [.domainSizer, .meshBuilder, .domainSizer, .meshBuilder,
   .domainSizer, .meshBuilder, .solveStep, .receiverInterp,
   .solveStep, .receiverInterp]

/-- Transcribed pipeline-call order of
src/examples/magnetics/magnetic_field.py: `get_domain` (198-199),
`get_stretched_h` (203-205), `solve` (219), `get_receiver`
(229, 234, 239). -/
def trace_magnetic_field : List Stage :=
  [.domainSizer, .domainSizer, .meshBuilder, .meshBuilder, .meshBuilder,
   .solveStep, .receiverInterp, .receiverInterp, .receiverInterp]

/-- Transcribed pipeline-call order of
src/examples/magnetics/magnetic_source_el_loop.py: `get_domain`
(194-195), `get_stretched_h` (199-201), `solve` (235), `get_receiver`
(240, 245, 267, 273, 279). -/
def trace_el_loop : List Stage :=
  [.domainSizer, .domainSizer, .meshBuilder, .meshBuilder, .meshBuilder,
   .solveStep, .receiverInterp, .receiverInterp, .receiverInterp,
   .receiverInterp, .receiverInterp]

/-- Transcribed pipeline-call order of
src/examples/tutorials/minimum_example.py: the mesh is written down
directly as a `discretize.TensorMesh` of width tuples (65-69) with no
Domain Sizer and no Stretched Mesh Builder call, then `solver.solver`
(104); no `get_receiver` call occurs. -/
def trace_minimum_example : List Stage := [.solveStep]

/-- Transcribed pipeline-call order of
src/examples/tutorials/total_vs_ps_field.py: three `get_hx_h0` calls
(104-110), `solve` for the total, primary and secondary fields (154, 165,
217), then four `get_receiver` calls (228-231). -/
def trace_total_vs_ps : List Stage :=
  [.domainSizer, .meshBuilder, .domainSizer, .meshBuilder,
   .domainSizer, .meshBuilder, .solveStep, .solveStep, .solveStep,
   .receiverInterp, .receiverInterp, .receiverInterp, .receiverInterp]

/-- Transcribed pipeline-call order of
src/examples/time_domain/freqselect.py: the file is a stub that only
calls `emg3d.Report()` (29); it contains no Domain Sizer, no Mesh
Builder, no solve and no Receiver Interpolator call. -/
def trace_freqselect : List Stage := []

/-- Transcribed pipeline-call order of
src/_downloads/36adde89e5cdaa56375c2014323b9a00/minimum_example.py: the
mesh is written down directly as width tuples (65-69), then `solve`
(109); no sizing, stretching or receiver-interpolation call occurs. -/
def trace_minimum_example_dl : List Stage := [.solveStep]

/-- Transcribed pipeline-call order of
src/_downloads/11650e1d41e61fa4f1d806c9e06d90e3/GemPy_discretize_emg3d.py:
`get_domain` (126-129), `get_stretched_h` (133-135), `solve` (210); no
`get_receiver` call occurs. -/
def trace_gempy : List Stage :=
  [.domainSizer, .domainSizer, .meshBuilder, .meshBuilder, .meshBuilder,
   .solveStep]

/-- Transcribed pipeline-call order of
src/_downloads/00a079d223361d7853b261b6b4af9ce2/magnetic_field.py:
`get_domain` (186-187), `get_stretched_h` (191-193), `solve` (207),
`get_receiver` (217, 222, 227). -/
def trace_magnetic_field_dl : List Stage :=
  [.domainSizer, .domainSizer, .meshBuilder, .meshBuilder, .meshBuilder,
   .solveStep, .receiverInterp, .receiverInterp, .receiverInterp]

/-- The transcribed pipeline traces of all ten gallery scripts under
src/. -/
def allTraces : List (List Stage) :=
  [trace_vti_laplace, trace_triaxial, trace_magnetic_field, trace_el_loop,
   trace_minimum_example, trace_total_vs_ps, trace_freqselect,
   trace_minimum_example_dl, trace_gempy, trace_magnetic_field_dl]

/-- Every occurrence of `target` in the trace is strictly preceded by an
occurrence of `trigger`; `seen` records whether a trigger was already
passed. -/
def precededBy (trigger target : Stage) : List Stage → Bool → Bool
  | [], _ => true
  | s :: rest, seen =>
      if s == target && !seen then false
      else precededBy trigger target rest (seen || s == trigger)

/-- Amended pipeline discipline of a trace: every Receiver Interpolator call
comes after a solve, every Mesh Builder call after a Domain Sizer call,
and, when the trace uses the Mesh Builder at all, every solve comes after
a Mesh Builder call. -/
def pipelineOk (t : List Stage) : Bool :=
  precededBy .solveStep .receiverInterp t false &&
  precededBy .domainSizer .meshBuilder t false &&
  (!(t.contains .meshBuilder) || precededBy .meshBuilder .solveStep t false)

/-- Transcribed from src/examples/magnetics/magnetic_field.py:167: the source
bipole `[x1, x2, y1, y2, z1, z2]`. -/
def srcMagnetics : List ℚ := [-50, 50, -30, 30, -320, -280]

/-- Transcribed from src/examples/magnetics/magnetic_field.py:168: the center
point of each source coordinate pair,
`np.mean(np.array(src).reshape(3, 2), 1)`. -/
def srcCenterMagnetics : ℚ × ℚ × ℚ :=
  ((srcMagnetics.getD 0 0 + srcMagnetics.getD 1 0) / 2,
   (srcMagnetics.getD 2 0 + srcMagnetics.getD 3 0) / 2,
   (srcMagnetics.getD 4 0 + srcMagnetics.getD 5 0) / 2)

/-- Transcribed from
src/_downloads/00a079d223361d7853b261b6b4af9ce2/magnetic_field.py:155: the
source bipole of the near-duplicate magnetic-field example. -/
def srcMagneticsDl : List ℚ := [-50, 50, -30, 30, -320, -280]

/-- Transcribed from
src/_downloads/00a079d223361d7853b261b6b4af9ce2/magnetic_field.py:156: the
center point of each source coordinate pair. -/
def srcCenterMagneticsDl : ℚ × ℚ × ℚ :=
  ((srcMagneticsDl.getD 0 0 + srcMagneticsDl.getD 1 0) / 2,
   (srcMagneticsDl.getD 2 0 + srcMagneticsDl.getD 3 0) / 2,
   (srcMagneticsDl.getD 4 0 + srcMagneticsDl.getD 5 0) / 2)

/-- Transcribed from src/examples/magnetics/magnetic_field.py:203-205: the
anchor arguments of the three `get_stretched_h` calls, namely
`src_c[0]`, `src_c[1]` and `src_c[2]`. -/
def magneticFieldAnchors : ℚ × ℚ × ℚ := srcCenterMagnetics

/-- Transcribed from
src/_downloads/00a079d223361d7853b261b6b4af9ce2/magnetic_field.py:191-193:
the anchor arguments of the three `get_stretched_h` calls there. -/
def magneticFieldAnchorsDl : ℚ × ℚ × ℚ := srcCenterMagneticsDl

/-- Transcribed from src/examples/magnetics/magnetic_field.py:198-207: the
whole mesh construction of the example, `get_domain(x0=src[0], freq=0.1,
min_width=20)` for x, `get_domain(x0=src[2], freq=0.1, min_width=20)` for
z, then `get_stretched_h(hx_min, xdomain, 128, src_c[i])` per axis,
through the spec-modelled Domain Sizer and Stretched Mesh Builder. -/
def magneticFieldMesh : Except MeshError (List ℚ × List ℚ × List ℚ) := do
  let dx ← compute_domain (srcMagnetics.getD 0 0) (1/10) 20 (3/10) none 5 5
  let dz ← compute_domain (srcMagnetics.getD 2 0) (1/10) 20 (3/10) none 5 5
  let hx ← build_stretched_axis dx.1 dx.2 128 srcCenterMagnetics.1 none
  let hy ← build_stretched_axis dx.1 dx.2 128 srcCenterMagnetics.2.1 none
  let hz ← build_stretched_axis dz.1 dz.2 128 srcCenterMagnetics.2.2 none
  return (hx, hy, hz)

/-- Transcribed from
src/_downloads/00a079d223361d7853b261b6b4af9ce2/magnetic_field.py:186-194:
the whole mesh construction of the near-duplicate example, with the same
literal arguments as the other file. -/
def magneticFieldMeshDl : Except MeshError (List ℚ × List ℚ × List ℚ) := do
  let dx ← compute_domain (srcMagneticsDl.getD 0 0) (1/10) 20 (3/10) none 5 5
  let dz ← compute_domain (srcMagneticsDl.getD 2 0) (1/10) 20 (3/10) none 5 5
  let hx ← build_stretched_axis dx.1 dx.2 128 srcCenterMagneticsDl.1 none
  let hy ← build_stretched_axis dx.1 dx.2 128 srcCenterMagneticsDl.2.1 none
  let hz ← build_stretched_axis dz.1 dz.2 128 srcCenterMagneticsDl.2.2 none
  return (hx, hy, hz)

theorem stretchWidths_length (mw r : ℚ) (n : ℕ) :
    (stretchWidths mw r n).length = n := by
  simp [stretchWidths]

theorem stretchWidths_sum_succ (mw r : ℚ) (m : ℕ) :
    (stretchWidths mw r (m + 1)).sum
      = (stretchWidths mw r m).sum + mw * r ^ (m + 1) := by
  simp [stretchWidths, List.range_succ]

theorem stretchWidths_pos (mw r : ℚ) (n : ℕ) (hmw : 0 < mw) (hr : 1 ≤ r) :
    ∀ w ∈ stretchWidths mw r n, 0 < w := by
  intro w hw
  simp only [stretchWidths, List.mem_map, List.mem_range] at hw
  obtain ⟨i, _, rfl⟩ := hw
  exact mul_pos hmw (pow_pos (lt_of_lt_of_le zero_lt_one hr) _)

theorem stretchWidths_sum_one (mw : ℚ) (n : ℕ) :
    (stretchWidths mw 1 n).sum = (n : ℚ) * mw := by
  induction n with
  | zero => simp [stretchWidths]
  | succ m ih => rw [stretchWidths_sum_succ, ih]; push_cast; ring

theorem one_le_bisectLo (mw d : ℚ) (n : ℕ) :
    ∀ (k : ℕ) (lo hi : ℚ), 1 ≤ lo → 1 ≤ hi → 1 ≤ bisectLo mw d n k lo hi := by
  intro k
  induction k with
  | zero => intro lo hi hlo _; exact hlo
  | succ k ih =>
      intro lo hi hlo hhi
      simp only [bisectLo]
      split
      · exact ih _ _ (by linarith) hhi
      · exact ih _ _ hlo (by linarith)

theorem bisectLo_sum_le (mw d : ℚ) (n : ℕ) :
    ∀ (k : ℕ) (lo hi : ℚ), (stretchWidths mw lo n).sum ≤ d →
      (stretchWidths mw (bisectLo mw d n k lo hi) n).sum ≤ d := by
  intro k
  induction k with
  | zero => intro lo hi h; exact h
  | succ k ih =>
      intro lo hi h
      simp only [bisectLo]
      split
      · next hc => exact ih _ _ hc
      · exact ih _ _ h

theorem one_le_findGrowth (mw d : ℚ) (n : ℕ) : 1 ≤ findGrowth mw d n :=
  one_le_bisectLo mw d n 40 1 _ le_rfl (le_max_left 1 _)

theorem findGrowth_sum_le (mw d : ℚ) (n : ℕ) (h : (n : ℚ) * mw ≤ d) :
    (stretchWidths mw (findGrowth mw d n) n).sum ≤ d :=
  bisectLo_sum_le mw d n 40 1 _ (by rw [stretchWidths_sum_one]; exact h)

theorem sideWidths_length (mw d : ℚ) (n : ℕ) : (sideWidths mw d n).length = n := by
  cases n with
  | zero => rfl
  | succ m => simp [sideWidths, stretchWidths_length]

theorem sideWidths_sum (mw d : ℚ) (m : ℕ) : (sideWidths mw d (m + 1)).sum = d := by
  simp only [sideWidths, List.sum_append, List.sum_cons, List.sum_nil]
  ring

theorem sideWidths_pos (mw d : ℚ) (m : ℕ) (hmw : 0 < mw)
    (hd : ((m + 1 : ℕ) : ℚ) * mw ≤ d) :
    ∀ w ∈ sideWidths mw d (m + 1), 0 < w := by
  intro w hw
  have hr := one_le_findGrowth mw d (m + 1)
  have hsum := findGrowth_sum_le mw d (m + 1) hd
  rw [stretchWidths_sum_succ] at hsum
  simp only [sideWidths, List.mem_append, List.mem_singleton] at hw
  rcases hw with hw | rfl
  · exact stretchWidths_pos mw _ m hmw hr w hw
  · have hp : 0 < mw * findGrowth mw d (m + 1) ^ (m + 1) :=
      mul_pos hmw (pow_pos (by linarith) _)
    linarith

theorem clipWidths_sum (mw : ℚ) (hmw : 0 < mw) :
    ∀ (n : ℕ) (rem : ℚ), 0 < rem → rem ≤ (n : ℚ) * mw →
      (clipWidths mw n rem).sum = rem := by
  intro n
  induction n with
  | zero => intro rem h1 h2; simp only [Nat.cast_zero, zero_mul] at h2; linarith
  | succ k ih =>
      intro rem h1 h2
      simp only [clipWidths]
      split
      · simp
      · next hc =>
          push_neg at hc
          rw [List.sum_cons, ih (rem - mw) (by linarith)
            (by push_cast at h2 ⊢; linarith)]
          ring

theorem clipWidths_pos (mw : ℚ) (hmw : 0 < mw) :
    ∀ (n : ℕ) (rem : ℚ), 0 < rem → ∀ w ∈ clipWidths mw n rem, 0 < w := by
  intro n
  induction n with
  | zero => intro rem _ w hw; simp [clipWidths] at hw
  | succ k ih =>
      intro rem h1 w hw
      simp only [clipWidths] at hw
      split at hw
      · simp only [List.mem_singleton] at hw; subst hw; exact h1
      · next hc =>
          push_neg at hc
          simp only [List.mem_cons] at hw
          rcases hw with rfl | hw
          · exact hmw
          · exact ih (rem - mw) (by linarith) w hw

theorem coverCount_le (mw : ℚ) (hmw : 0 < mw) :
    ∀ (fuel : ℕ) (dist : ℚ), dist ≤ (fuel : ℚ) * mw →
      dist ≤ ((coverCount mw fuel dist : ℕ) : ℚ) * mw := by
  intro fuel
  induction fuel with
  | zero =>
      intro dist h
      simp only [Nat.cast_zero, zero_mul] at h
      simp only [coverCount, Nat.cast_one, one_mul]
      linarith
  | succ k ih =>
      intro dist h
      simp only [coverCount]
      split
      · next hc => simpa using le_trans hc (by nlinarith)
      · next hc =>
          push_neg at hc
          have hrec := ih (dist - mw) (by push_cast at h ⊢; linarith)
          push_cast
          push_cast at hrec
          linarith

theorem one_le_coverCount (mw : ℚ) :
    ∀ (fuel : ℕ) (dist : ℚ), 1 ≤ coverCount mw fuel dist := by
  intro fuel
  induction fuel with
  | zero => intro dist; exact le_refl 1
  | succ k ih =>
      intro dist
      simp only [coverCount]
      split
      · exact le_refl 1
      · have := ih (dist - mw); omega

theorem axisNodes_ne_nil (x0 : ℚ) (ws : List ℚ) : axisNodes x0 ws ≠ [] := by
  cases ws <;> simp [axisNodes]

theorem axisNodes_head (x0 : ℚ) (ws : List ℚ) :
    (axisNodes x0 ws).head? = some x0 := by
  cases ws <;> rfl

theorem axisNodes_getLast (x0 : ℚ) (ws : List ℚ) :
    (axisNodes x0 ws).getLast? = some (x0 + ws.sum) := by
  induction ws generalizing x0 with
  | nil => simp [axisNodes]
  | cons w t ih =>
      have h := ih (x0 + w)
      cases t with
      | nil => simp [axisNodes]
      | cons u t' =>
          simp only [axisNodes] at h ⊢
          rw [List.getLast?_cons_cons, h, List.sum_cons, List.sum_cons]
          congr 1
          simp only [List.sum_cons]
          ring

theorem buildMain_ok (mw : ℚ) (d : ℚ × ℚ) (n nU : ℕ) (bl : ℚ) (ws : List ℚ)
    (hmw : 0 < mw) (h : buildMain mw d n nU bl = .ok ws) :
    (∀ w ∈ ws, 0 < w) ∧ ws.sum = d.2 - d.1 := by
  simp only [buildMain] at h
  split at h
  · simp at h
  · next hn =>
      push_neg at hn
      split at h
      · simp at h
      · next hgate =>
          push_neg at hgate
          obtain ⟨hdL, hdR⟩ := hgate
          injection h with h
          subst h
          obtain ⟨mL, hmL⟩ : ∃ m, (n - nU) / 2 = m + 1 := ⟨(n - nU) / 2 - 1, by omega⟩
          obtain ⟨mR, hmR⟩ : ∃ m, n - nU - (n - nU) / 2 = m + 1 :=
            ⟨n - nU - (n - nU) / 2 - 1, by omega⟩
          rw [hmR] at hdR ⊢
          rw [hmL] at hdL ⊢
          constructor
          · intro w hw
            simp only [List.mem_append, List.mem_reverse,
              List.mem_replicate] at hw
            rcases hw with (hw | hw) | hw
            · exact sideWidths_pos mw _ mL hmw hdL w hw
            · rw [hw.2]; exact hmw
            · exact sideWidths_pos mw _ mR hmw hdR w hw
          · rw [List.sum_append, List.sum_append, List.sum_reverse,
              sideWidths_sum, sideWidths_sum, List.sum_replicate,
              nsmul_eq_mul]
            ring

/-- C1: every successful call of the Stretched Mesh Builder returns a
cell-width sequence that is strictly positive and sums exactly (hence
within any stated tolerance) to `domain.2 - domain.1`; consequently, when
the axis is anchored with origin equal to the domain minimum, its first
node is `domain.1` and its last node is `domain.2`, so the mesh axis
covers exactly the computed domain interval. -/
theorem stretched_axis_positive_and_covers
    (mw : ℚ) (domain : ℚ × ℚ) (n : ℕ) (anchor : ℚ) (second : Option ℚ)
    (ws : List ℚ)
    (h : build_stretched_axis mw domain n anchor second = .ok ws) :
    (∀ w ∈ ws, 0 < w) ∧ ws.sum = domain.2 - domain.1 ∧
      (axisNodes domain.1 ws).head? = some domain.1 ∧
      (axisNodes domain.1 ws).getLast? = some domain.2 := by
  have key : (∀ w ∈ ws, 0 < w) ∧ ws.sum = domain.2 - domain.1 := by
    simp only [build_stretched_axis] at h
    split at h
    · simp at h
    · next hvalid =>
        push_neg at hvalid
        obtain ⟨hmw, hd, _, _⟩ := hvalid
        split at h
        · next hclip =>
            injection h with h
            subst h
            exact ⟨clipWidths_pos mw hmw n _ (by linarith),
              clipWidths_sum mw hmw n _ (by linarith) hclip⟩
        · split at h
          · exact buildMain_ok _ _ _ _ _ _ hmw h
          · split at h
            · simp at h
            · exact buildMain_ok _ _ _ _ _ _ hmw h
  refine ⟨key.1, key.2, axisNodes_head _ _, ?_⟩
  rw [axisNodes_getLast, key.2]
  congr 1
  ring

/-- C1 witness: the builder at min_width 1, domain (0, 3), 5 cells and
anchor 1 returns the widths [1, 1, 1], which are positive, sum to the
span 3, and produce nodes running from 0 to 3. -/
theorem stretched_axis_positive_and_covers_witness :
    (∀ w ∈ ([1, 1, 1] : List ℚ), 0 < w) ∧
      ([1, 1, 1] : List ℚ).sum = ((0, 3) : ℚ × ℚ).2 - ((0, 3) : ℚ × ℚ).1 ∧
      (axisNodes ((0, 3) : ℚ × ℚ).1 [1, 1, 1]).head?
        = some ((0, 3) : ℚ × ℚ).1 ∧
      (axisNodes ((0, 3) : ℚ × ℚ).1 [1, 1, 1]).getLast?
        = some ((0, 3) : ℚ × ℚ).2 :=
  stretched_axis_positive_and_covers 1 (0, 3) 5 1 none [1, 1, 1]
    (by norm_num [build_stretched_axis, clipWidths])

theorem sideWidths_sum_of_pos (mw d : ℚ) (n : ℕ) (hn : 1 ≤ n) :
    (sideWidths mw d n).sum = d := by
  obtain ⟨m, rfl⟩ : ∃ m, n = m + 1 := ⟨n - 1, by omega⟩
  exact sideWidths_sum mw d m

theorem buildMain_eq (mw : ℚ) (d : ℚ × ℚ) (n nU : ℕ) (bl : ℚ)
    (hn : nU + 2 ≤ n)
    (hL : (((n - nU) / 2 : ℕ) : ℚ) * mw ≤ bl - d.1)
    (hR : ((n - nU - (n - nU) / 2 : ℕ) : ℚ) * mw
        ≤ d.2 - (bl + (nU : ℚ) * mw)) :
    buildMain mw d n nU bl
      = .ok ((sideWidths mw (bl - d.1) ((n - nU) / 2)).reverse
          ++ List.replicate nU mw
          ++ sideWidths mw (d.2 - (bl + (nU : ℚ) * mw))
              (n - nU - (n - nU) / 2)) := by
  simp only [buildMain]
  rw [if_neg (by omega), if_neg (by push_neg; exact ⟨hL, hR⟩)]

/-- C2: for valid main-branch inputs of the Stretched Mesh Builder, the
returned sequence decomposes as a left stretched run, a uniform block in
which every width equals `min_width` exactly, and a right stretched run;
with a single anchor the left run sums to `anchor - nU*mw/2 - domain.1`,
so the uniform block of width `nU*mw` is centered on the anchor; with a
second anchor the left run sums to `anchor - domain.1`, so the uniform
block starts exactly at the first anchor, and `x1 - anchor <= nU*mw`, so
the block of minimum-width cells spans the whole interval from the first
anchor to the second anchor. -/
theorem uniform_block_centered_and_spans :
    (∀ (mw : ℚ) (d : ℚ × ℚ) (n : ℕ) (a : ℚ) (nU : ℕ),
        nU = (if n % 2 = 0 then 2 else 1) →
        0 < mw → d.1 < d.2 → (n : ℚ) * mw < d.2 - d.1 →
        nU + 2 ≤ n →
        (((n - nU) / 2 : ℕ) : ℚ) * mw ≤ a - (nU : ℚ) * mw / 2 - d.1 →
        ((n - nU - (n - nU) / 2 : ℕ) : ℚ) * mw
          ≤ d.2 - (a + (nU : ℚ) * mw / 2) →
        d.1 ≤ a → a ≤ d.2 →
        ∃ L R : List ℚ,
          build_stretched_axis mw d n a none
            = .ok (L.reverse ++ List.replicate nU mw ++ R) ∧
          L.length = (n - nU) / 2 ∧ R.length = n - nU - (n - nU) / 2 ∧
          L.sum = a - (nU : ℚ) * mw / 2 - d.1 ∧
          R.sum = d.2 - (a + (nU : ℚ) * mw / 2)) ∧
    (∀ (mw : ℚ) (d : ℚ × ℚ) (n : ℕ) (a x1 : ℚ) (nU : ℕ),
        nU = coverCount mw n (x1 - a) →
        0 < mw → d.1 < d.2 → (n : ℚ) * mw < d.2 - d.1 →
        nU + 2 ≤ n →
        x1 - a ≤ (n : ℚ) * mw →
        (((n - nU) / 2 : ℕ) : ℚ) * mw ≤ a - d.1 →
        ((n - nU - (n - nU) / 2 : ℕ) : ℚ) * mw
          ≤ d.2 - (a + (nU : ℚ) * mw) →
        d.1 ≤ a → a ≤ x1 → x1 ≤ d.2 →
        ∃ L R : List ℚ,
          build_stretched_axis mw d n a (some x1)
            = .ok (L.reverse ++ List.replicate nU mw ++ R) ∧
          L.sum = a - d.1 ∧
          x1 - a ≤ (nU : ℚ) * mw ∧
          L.length = (n - nU) / 2 ∧ R.length = n - nU - (n - nU) / 2 ∧
          R.sum = d.2 - (a + (nU : ℚ) * mw)) := by
  constructor
  · intro mw d n a nU hnU hmw hd hspan hn hL hR ha1 ha2
    subst hnU
    have hvalid : ¬(mw ≤ 0 ∨ d.2 ≤ d.1 ∨ a < d.1 ∨ d.2 < a) := by
      push_neg
      exact ⟨by linarith, by linarith, by linarith, by linarith⟩
    have hbuild : build_stretched_axis mw d n a none
        = buildMain mw d n (if n % 2 = 0 then 2 else 1)
            (a - ((if n % 2 = 0 then 2 else 1 : ℕ) : ℚ) * mw / 2) := by
      simp only [build_stretched_axis]
      rw [if_neg hvalid]
      rw [if_neg (by linarith)]
    rw [hbuild, buildMain_eq _ _ _ _ _ hn (by linarith) (by linarith)]
    refine ⟨_, _, rfl, sideWidths_length _ _ _, sideWidths_length _ _ _,
      ?_, ?_⟩
    · rw [sideWidths_sum_of_pos _ _ _ (by omega)]
    · rw [sideWidths_sum_of_pos _ _ _ (by omega)]
      ring
  · intro mw d n a x1 nU hnU hmw hd hspan hn hdist hL hR ha1 ha2 ha3
    subst hnU
    have hvalid : ¬(mw ≤ 0 ∨ d.2 ≤ d.1 ∨ a < d.1 ∨ d.2 < a) := by
      push_neg
      exact ⟨by linarith, by linarith, by linarith, by linarith⟩
    have hbuild : build_stretched_axis mw d n a (some x1)
        = buildMain mw d n (coverCount mw n (x1 - a)) a := by
      simp only [build_stretched_axis]
      rw [if_neg hvalid]
      rw [if_neg (by linarith)]
      rw [if_neg (by push_neg; exact ⟨by linarith, by linarith⟩)]
    rw [hbuild, buildMain_eq _ _ _ _ _ hn (by linarith) (by linarith)]
    refine ⟨_, _, rfl, ?_, coverCount_le mw hmw n (x1 - a) hdist,
      sideWidths_length _ _ _, sideWidths_length _ _ _, ?_⟩
    · rw [sideWidths_sum_of_pos _ _ _ (by omega)]
    · rw [sideWidths_sum_of_pos _ _ _ (by omega)]

/-- C2 witness: with min_width 1, domain (0, 100), 10 cells and anchor 50
the builder returns a 4-cell stretched run, a centered uniform block of
two width-1 cells, and a 4-cell stretched run; with second anchor 52 the
uniform block starts at 50 and its `nU` width-1 cells cover the whole
interval from 50 to 52. -/
theorem uniform_block_centered_and_spans_witness :
    (∃ L R : List ℚ,
        build_stretched_axis 1 (0, 100) 10 50 none
          = .ok (L.reverse ++ List.replicate 2 1 ++ R) ∧
        L.length = (10 - 2) / 2 ∧ R.length = 10 - 2 - (10 - 2) / 2 ∧
        L.sum = 50 - (2 : ℚ) * 1 / 2 - ((0, 100) : ℚ × ℚ).1 ∧
        R.sum = ((0, 100) : ℚ × ℚ).2 - (50 + (2 : ℚ) * 1 / 2)) ∧
    (∃ L R : List ℚ,
        build_stretched_axis 1 (0, 100) 10 50 (some 52)
          = .ok (L.reverse
              ++ List.replicate (coverCount 1 10 ((52 : ℚ) - 50)) 1 ++ R) ∧
        L.sum = 50 - ((0, 100) : ℚ × ℚ).1 ∧
        (52 : ℚ) - 50 ≤ ((coverCount 1 10 ((52 : ℚ) - 50) : ℕ) : ℚ) * 1 ∧
        L.length = (10 - coverCount 1 10 ((52 : ℚ) - 50)) / 2 ∧
        R.length = 10 - coverCount 1 10 ((52 : ℚ) - 50)
          - (10 - coverCount 1 10 ((52 : ℚ) - 50)) / 2 ∧
        R.sum = ((0, 100) : ℚ × ℚ).2
          - (50 + ((coverCount 1 10 ((52 : ℚ) - 50) : ℕ) : ℚ) * 1)) := by
  have hcc : coverCount 1 10 ((52 : ℚ) - 50) = 2 := by
    norm_num [coverCount]
  constructor
  · exact uniform_block_centered_and_spans.1 1 (0, 100) 10 50 2
      (by norm_num) (by norm_num) (by norm_num) (by norm_num) (by norm_num)
      (by norm_num) (by norm_num) (by norm_num) (by norm_num)
  · exact uniform_block_centered_and_spans.2 1 (0, 100) 10 50 52
      (coverCount 1 10 ((52 : ℚ) - 50)) rfl (by norm_num) (by norm_num)
      (by norm_num) (by rw [hcc]; norm_num) (by norm_num)
      (by rw [hcc]; norm_num) (by rw [hcc]; norm_num)
      (by norm_num) (by norm_num) (by norm_num)

/-- C3 counterexample: the 48-cell, width-25, symmetrically stretched x-axis
constructed in the minimum example, `[(25, 10, -1.04), (25, 28),
(25, 10, 1.04)]`, does not have total span 1000: its widths sum to
5051870614600552/3814697265625, which is about 1324.32. -/
theorem minimum_example_span_ne_1000 : minimumExampleHx.sum ≠ 1000 := by
  norm_num [minimumExampleHx, padWidths, List.range_succ, List.replicate]

/-- C3 amended: the minimum example's x-axis has 48 cells with a uniform
block of 28 width-25 cells in positions 10..37, mirror-symmetric
geometric flanks, equal left-half and right-half spans (so the CCC
centering puts the anchor 0 at the axis center), and total span
5051870614600552/3814697265625, about 1324.32, not 1000; moreover no
48-cell width-25 stretched axis can span exactly 1000 (48*25 = 1200 >
1000), and at min_width 25, domain (-500, 500) and 48 cells the
spec-modelled builder takes its clip branch, returning 40 uniform
width-25 cells that sum exactly to the 1000 span with no stretched
flanks. -/
theorem minimum_example_axis_amended :
    minimumExampleHx.length = 48 ∧
    (minimumExampleHx.drop 10).take 28 = List.replicate 28 25 ∧
    minimumExampleHx.take 10 = (minimumExampleHx.drop 38).reverse ∧
    (minimumExampleHx.take 24).sum = (minimumExampleHx.drop 24).sum ∧
    minimumExampleHx.sum = 5051870614600552 / 3814697265625 ∧
    build_stretched_axis 25 (-500, 500) 48 0 none
      = .ok (List.replicate 40 25) ∧
    (List.replicate 40 (25 : ℚ)).sum = 500 - (-500) := by
  refine ⟨?_, ?_, ?_, ?_, ?_, ?_, ?_⟩ <;>
    norm_num [minimumExampleHx, padWidths, List.range_succ, List.replicate,
      build_stretched_axis, clipWidths]

theorem head_le_getLast_of_chain (x : ℚ) (l : List ℚ)
    (hs : (x :: l).Chain' (· < ·)) :
    ∀ xl, (x :: l).getLast? = some xl → x ≤ xl := by
  induction l generalizing x with
  | nil =>
      intro xl h
      simp only [List.getLast?_singleton, Option.some.injEq] at h
      subst h
      exact le_refl x
  | cons y r ih =>
      intro xl h
      rw [List.getLast?_cons_cons] at h
      rw [List.chain'_cons] at hs
      have := ih y hs.2 xl h
      linarith [hs.1]

theorem locate_eq_none (xs : List ℚ) (t : ℚ) (hs : xs.Chain' (· < ·))
    (hout : (∃ x0, xs.head? = some x0 ∧ t < x0) ∨
            (∃ xl, xs.getLast? = some xl ∧ xl < t)) :
    locate xs t = none := by
  induction xs with
  | nil => rfl
  | cons x rest ih =>
      cases rest with
      | nil =>
          rcases hout with ⟨x0, hx0, hlt⟩ | ⟨xl, hxl, hgt⟩
          · simp only [List.head?_cons, Option.some.injEq] at hx0
            subst hx0
            simp only [locate, ite_eq_right_iff]
            intro hteq
            exact absurd hteq (by intro hc; subst hc; linarith)
          · simp only [List.getLast?_singleton, Option.some.injEq] at hxl
            subst hxl
            simp only [locate, ite_eq_right_iff]
            intro hteq
            exact absurd hteq (by intro hc; subst hc; linarith)
      | cons x1 r =>
          rw [List.chain'_cons] at hs
          rcases hout with ⟨x0, hx0, hlt⟩ | ⟨xl, hxl, hgt⟩
          · simp only [List.head?_cons, Option.some.injEq] at hx0
            subst hx0
            simp only [locate, if_pos hlt]
          · rw [List.getLast?_cons_cons] at hxl
            have hx1l : x1 ≤ xl := head_le_getLast_of_chain x1 r hs.2 xl hxl
            simp only [locate]
            rw [if_neg (by linarith [hs.1]), if_neg (by linarith)]
            rw [ih hs.2 (Or.inr ⟨xl, hxl, hgt⟩)]

/-- C4: for every receiver coordinate that lies strictly outside the
staggered grid's coordinate span on any axis, the Receiver Interpolator
`get_receiver` and the 1D `interp1d` helper with the out-of-range policy
of `bounds_error=False` return the documented out-of-range sentinel
`none`, never a silently extrapolated number. -/
theorem receiver_outside_span_missing
    (xs ys zs : List ℚ) (f : ℕ → ℕ → ℕ → ℚ) (g : ℕ → ℚ) (p : ℚ × ℚ × ℚ)
    (hsx : xs.Chain' (· < ·)) (hsy : ys.Chain' (· < ·))
    (hsz : zs.Chain' (· < ·))
    (hout :
      ((∃ x0, xs.head? = some x0 ∧ p.1 < x0) ∨
       (∃ xl, xs.getLast? = some xl ∧ xl < p.1)) ∨
      ((∃ y0, ys.head? = some y0 ∧ p.2.1 < y0) ∨
       (∃ yl, ys.getLast? = some yl ∧ yl < p.2.1)) ∨
      ((∃ z0, zs.head? = some z0 ∧ p.2.2 < z0) ∨
       (∃ zl, zs.getLast? = some zl ∧ zl < p.2.2))) :
    get_receiver xs ys zs f p = none ∧
      (((∃ x0, xs.head? = some x0 ∧ p.1 < x0) ∨
        (∃ xl, xs.getLast? = some xl ∧ xl < p.1)) →
        interp1d xs g p.1 = none) := by
  constructor
  · rcases hout with hx | hy | hz
    · have h := locate_eq_none xs p.1 hsx hx
      simp only [get_receiver, h]
    · have h := locate_eq_none ys p.2.1 hsy hy
      simp only [get_receiver, h]
      cases locate xs p.1 <;> rfl
    · have h := locate_eq_none zs p.2.2 hsz hz
      simp only [get_receiver, h]
      cases locate xs p.1 <;> [rfl; cases locate ys p.2.1 <;> rfl]
  · intro hx
    have h := locate_eq_none xs p.1 hsx hx
    simp only [interp1d, h]

/-- C4 witness: the receiver x-coordinate 5 lies strictly above the x-axis
staggered span [0, 2], and both the tri-linear interpolator and the 1D
helper return the sentinel there. -/
theorem receiver_outside_span_missing_witness :
    get_receiver [0, 1, 2] [0, 1] [0, 1] (fun _ _ _ => (7 : ℚ))
        ((5 : ℚ), (1/2 : ℚ), (1/2 : ℚ)) = none ∧
      (((∃ x0, ([0, 1, 2] : List ℚ).head? = some x0 ∧ (5 : ℚ) < x0) ∨
        (∃ xl, ([0, 1, 2] : List ℚ).getLast? = some xl ∧ xl < (5 : ℚ))) →
        interp1d [0, 1, 2] (fun _ => (7 : ℚ)) 5 = none) :=
  receiver_outside_span_missing [0, 1, 2] [0, 1] [0, 1]
    (fun _ _ _ => (7 : ℚ)) (fun _ => (7 : ℚ)) (5, 1/2, 1/2)
    (by norm_num [List.chain'_cons])
    (by norm_num [List.chain'_cons])
    (by norm_num [List.chain'_cons])
    (Or.inl (Or.inr ⟨2, rfl, by norm_num⟩))

/-- C5: the Domain Sizer fails with an `invalidParameter` error whenever the
supplied resistivity is non-positive, the supplied frequency is zero, or
the caller-supplied domain limits satisfy `limits.1 >= limits.2`; in
particular `get_hx_h0` rejects a degenerate domain whose lower and upper
limits are equal instead of returning a mesh axis. -/
theorem domain_sizer_invalid_parameter :
    (∀ (x0 freq mw res : ℚ) (limits : Option (ℚ × ℚ)) (fn fp : ℚ),
        (res ≤ 0 ∨ freq = 0 ∨ (∃ l, limits = some l ∧ l.2 ≤ l.1)) →
        compute_domain x0 freq mw res limits fn fp
          = .error .invalidParameter) ∧
    (∀ (res : List ℚ) (freq : ℚ) (domain : ℚ × ℚ) (fixed : List ℚ)
        (mw : ℚ),
        ((∃ r ∈ res, r ≤ 0) ∨ freq = 0 ∨ domain.2 ≤ domain.1) →
        get_hx_h0 res freq domain fixed mw = .error .invalidParameter) := by
  constructor
  · intro x0 freq mw res limits fn fp h
    by_cases hg : res ≤ 0 ∨ freq = 0 ∨ mw ≤ 0
    · simp only [compute_domain, if_pos hg]
    · rcases h with hres | hfreq | ⟨l, rfl, hl⟩
      · exact absurd (Or.inl hres) hg
      · exact absurd (Or.inr (Or.inl hfreq)) hg
      · simp only [compute_domain, if_neg hg, if_pos hl]
  · intro res freq domain fixed mw h
    have hg : (∃ r ∈ res, r ≤ 0) ∨ freq = 0 ∨ domain.2 ≤ domain.1 ∨
        mw ≤ 0 := by
      rcases h with h | h | h
      · exact Or.inl h
      · exact Or.inr (Or.inl h)
      · exact Or.inr (Or.inr (Or.inl h))
    simp only [get_hx_h0, if_pos hg]

/-- C5 witness: the call of the 2D tri-axial comparison example,
`get_hx_h0(res=[0.3, 1e5], fixed=src[1], domain=[400, 400],
freq=0.5, min_width=100)`, has a degenerate domain with equal limits and
fails with `invalidParameter` rather than returning a mesh axis. -/
theorem domain_sizer_invalid_parameter_witness :
    get_hx_h0 [3/10, 100000] (1/2) (400, 400) [0] 100
      = .error .invalidParameter :=
  domain_sizer_invalid_parameter.2 [3/10, 100000] (1/2) (400, 400) [0] 100
    (Or.inr (Or.inr (by norm_num)))

/-- C6 counterexample: the claim that no example skips the Domain Sizer or
Mesh Builder stage is false: the minimum example solves without ever
calling the Domain Sizer or the Stretched Mesh Builder, and the
frequency-selection stub contains no pipeline call at all. -/
theorem pipeline_stage_skipped :
    Stage.solveStep ∈ trace_minimum_example ∧
    Stage.domainSizer ∉ trace_minimum_example ∧
    Stage.meshBuilder ∉ trace_minimum_example ∧
    Stage.domainSizer ∉ trace_freqselect ∧
    Stage.meshBuilder ∉ trace_freqselect := by
  decide

/-- C6 amended: in every gallery script each Receiver Interpolator call
comes after a solve, each Mesh Builder call after a Domain Sizer call,
and, whenever a script uses the Mesh Builder, each solve comes after a
Mesh Builder call; the comparison, magnetics, GemPy and
total-versus-primary/secondary scripts all invoke both the Domain Sizer
and the Mesh Builder, but the two minimum-example scripts and the
frequency-selection stub skip the Domain Sizer and Mesh Builder stages,
so the original claim that no example skips them fails. -/
theorem pipeline_order_amended :
    allTraces.all pipelineOk = true ∧
    (Stage.domainSizer ∈ trace_vti_laplace ∧
     Stage.meshBuilder ∈ trace_vti_laplace) ∧
    (Stage.domainSizer ∈ trace_triaxial ∧
     Stage.meshBuilder ∈ trace_triaxial) ∧
    (Stage.domainSizer ∈ trace_magnetic_field ∧
     Stage.meshBuilder ∈ trace_magnetic_field) ∧
    (Stage.domainSizer ∈ trace_el_loop ∧
     Stage.meshBuilder ∈ trace_el_loop) ∧
    (Stage.domainSizer ∈ trace_total_vs_ps ∧
     Stage.meshBuilder ∈ trace_total_vs_ps) ∧
    (Stage.domainSizer ∈ trace_gempy ∧
     Stage.meshBuilder ∈ trace_gempy) ∧
    (Stage.domainSizer ∈ trace_magnetic_field_dl ∧
     Stage.meshBuilder ∈ trace_magnetic_field_dl) ∧
    Stage.domainSizer ∉ trace_minimum_example_dl := by
  decide

/-- C7 counterexample: the three `get_stretched_h` anchors of the
magnetic-field example are the source-center coordinates (0, 0, -300),
not (-50, 0, -300): the value -50 is `src[0]`, the `x0` argument of
`get_domain`, while the anchor of the x-axis build is `src_c[0] = 0`. -/
theorem magnetic_anchor_not_minus_fifty :
    magneticFieldAnchors = (0, 0, -300) ∧
    magneticFieldAnchors.1 ≠ (-50 : ℚ) := by
  constructor
  · norm_num [magneticFieldAnchors, srcCenterMagnetics, srcMagnetics,
      List.getD]
  · norm_num [magneticFieldAnchors, srcCenterMagnetics, srcMagnetics,
      List.getD]

/-- C7 amended: the Domain Sizer and Stretched Mesh Builder are pure
functions of their arguments, and the two magnetic-field examples invoke
them with identical transcribed arguments — the same source bipole, the
same `get_domain` calls, and the same `get_stretched_h` calls with
anchors 0, 0 and -300 (the per-pair source centers; -50 is `get_domain`'s
`x0`, not a stretching anchor) — hence the two files construct identical
cell-width sequences and meshes. -/
theorem magnetic_pipelines_identical :
    srcMagnetics = srcMagneticsDl ∧
    magneticFieldAnchors = magneticFieldAnchorsDl ∧
    magneticFieldMesh = magneticFieldMeshDl :=
  ⟨rfl, rfl, rfl⟩

/-- C9: the secondary-source scaling of the total-versus-primary/secondary
example multiplies only interior staggered-grid entries by the
volume-averaged conductivity difference; every boundary-edge entry of
each of the three copied field arrays is left exactly equal to the
primary-field value, for all field and conductivity arrays. -/
theorem secondary_source_boundary_frame
    (s1 s2 s3 : ℕ) (f ds : ℕ → ℕ → ℕ → ℚ) (i j k : ℕ) :
    ((j = 0 ∨ s2 ≤ j + 1 ∨ k = 0 ∨ s3 ≤ k + 1) →
      scale_fx s2 s3 f ds i j k = f i j k) ∧
    ((i = 0 ∨ s1 ≤ i + 1 ∨ k = 0 ∨ s3 ≤ k + 1) →
      scale_fy s1 s3 f ds i j k = f i j k) ∧
    ((i = 0 ∨ s1 ≤ i + 1 ∨ j = 0 ∨ s2 ≤ j + 1) →
      scale_fz s1 s2 f ds i j k = f i j k) := by
  refine ⟨fun h => ?_, fun h => ?_, fun h => ?_⟩
  · simp only [scale_fx]
    rw [if_neg (by omega)]
  · simp only [scale_fy]
    rw [if_neg (by omega)]
  · simp only [scale_fz]
    rw [if_neg (by omega)]

/-- C9 witness: on a 4x4x4-shaped x-component array, the boundary entry at
j = 0 keeps its primary-field value 2 after the secondary-source
scaling. -/
theorem secondary_source_boundary_frame_witness :
    scale_fx 4 4 (fun _ _ _ => (2 : ℚ)) (fun _ _ _ => (5 : ℚ)) 1 0 1
      = 2 :=
  (secondary_source_boundary_frame 4 4 4 (fun _ _ _ => (2 : ℚ))
    (fun _ _ _ => (5 : ℚ)) 1 0 1).1 (Or.inl rfl)

/-- C10: the relative-error entry `abs((depm - de3d)/depm)*100` of
`plot_result_rel` divides by the reference entry without a guard: when
the reference entry is zero the result is NaN (if the difference is also
zero) or positive infinity (otherwise), in both cases a non-finite value
rather than a raised error. -/
theorem relative_error_nonfinite_on_zero (depm de3d : ℚ) (h : depm = 0) :
    (relErrEntry depm de3d = FVal.nan ∨
      relErrEntry depm de3d = FVal.posInf) ∧
    (relErrEntry depm de3d).isFinite = false := by
  subst h
  by_cases hb : de3d = 0
  · subst hb
    simp [relErrEntry, fdivStep, fabs, fscale, FVal.isFinite]
  · have ha : (0 : ℚ) - de3d ≠ 0 := by
      intro hc
      exact hb (by linarith)
    by_cases hlt : de3d < 0
    · simp [relErrEntry, fdivStep, hb, hlt, fabs, fscale, FVal.isFinite]
    · simp [relErrEntry, fdivStep, hb, hlt, fabs, fscale, FVal.isFinite]

/-- C10 witness: with reference entry 0 and solver entry 1 the
relative-error entry is non-finite (positive infinity or NaN) instead of
an error. -/
theorem relative_error_nonfinite_on_zero_witness :
    (relErrEntry 0 1 = FVal.nan ∨ relErrEntry 0 1 = FVal.posInf) ∧
    (relErrEntry 0 1).isFinite = false :=
  relative_error_nonfinite_on_zero 0 1 rfl
